import Mathlib

/-
  Shallow embedding of the two OpenCV demo scripts of this repository:

  * `src/lesson_10/homework/optical_flow_demo.py`  (Pipeline A: sparse
    Lucas-Kanade optical-flow visualisation with a bounded history deque);
  * `src/lesson_10/homework/tracker_compare.py`    (Pipeline B: KCF/CSRT/MIL
    tracker comparison with an ROI overlay).

  External vision-library operations (corner detection, flow estimation,
  tracker updates, ROI selection, colour generation) are modelled as oracle
  functions passed in as parameters.  Point coordinates are modelled with
  integers (the scripts cast every coordinate through `int(...)` before
  drawing).  Drawing onto a frame is modelled as the list of drawing commands
  issued, in order.  A Python exception escaping the modelled code is `none`
  (for `Option`-valued models).
-/

/-! ## numpy image model (for `overlay_image` in tracker_compare.py)

A 2-D numpy array of pixels: row and column counts plus a pixel function
(values outside the stated bounds are irrelevant padding). -/

structure Image where
  rows : Nat
  cols : Nat
  px : Nat → Nat → Int

/-- Python slice-endpoint normalisation on an axis of length `n`: a negative
endpoint counts from the end of the axis, and the result is clamped to
`[0, n]`. -/
def pyBound (n : Nat) (i : Int) : Nat :=
  if i < 0 then ((n : Int) + i).toNat else min i.toNat n

/-- Number of elements selected by the Python slice `a[i:j]` on an axis of
length `n`. -/
def pySliceLen (n : Nat) (i j : Int) : Nat :=
  pyBound n j - pyBound n i

/-- The 2-D numpy slice `a[r0:r1, c0:c1]` (a view with shifted origin). -/
def slice2 (a : Image) (r0 r1 c0 c1 : Int) : Image :=
  { rows := pySliceLen a.rows r0 r1
    cols := pySliceLen a.cols c0 c1
    px := fun r c => a.px (pyBound a.rows r0 + r) (pyBound a.cols c0 + c) }

/-- numpy broadcast check for assigning a value of shape `(vr, vc)` into a
target slice of shape `(tr, tc)`: each axis must match or be `1`. -/
def broadcastOk (vr vc tr tc : Nat) : Bool :=
  (vr == tr || vr == 1) && (vc == tc || vc == 1)

/-- The numpy sliced assignment `a[r0:r1, c0:c1] = v`.  Returns the updated
array; `none` models the `ValueError` numpy raises when `v` does not
broadcast to the target shape (in which case nothing is written). -/
def assign2 (a : Image) (r0 r1 c0 c1 : Int) (v : Image) : Option Image :=
  let sR := pyBound a.rows r0
  let tR := pySliceLen a.rows r0 r1
  let sC := pyBound a.cols c0
  let tC := pySliceLen a.cols c0 c1
  if broadcastOk v.rows v.cols tR tC then
    some { rows := a.rows, cols := a.cols
           px := fun r c =>
             if sR ≤ r ∧ r < sR + tR ∧ sC ≤ c ∧ c < sC + tC then
               v.px (if v.rows = 1 then 0 else r - sR)
                    (if v.cols = 1 then 0 else c - sC)
             else a.px r c }
  else none

/-- tracker_compare.py lines 24-33:

```
def overlay_image(background, foreground, x, y):
    fg_height, fg_width = foreground.shape[:2]
    bg_height, bg_width = background.shape[:2]
    w = min(fg_width, bg_width - x)
    h = min(fg_height, bg_height - y)
    if w < fg_width or h < fg_height:
        foreground = foreground[:h, :w]
    background[y:y + h, x:x + w] = foreground[:h, :w]
    return background
```

The result is the state of `background` after the sliced assignment; `none`
models an uncaught numpy ValueError from that assignment. -/
def overlay_image (background foreground : Image) (x y : Int) : Option Image :=
  let fg_height : Int := foreground.rows
  let fg_width : Int := foreground.cols
  let bg_height : Int := background.rows
  let bg_width : Int := background.cols
  let w : Int := min fg_width (bg_width - x)
  let h : Int := min fg_height (bg_height - y)
  let fg2 := if w < fg_width ∨ h < fg_height then slice2 foreground 0 h 0 w
             else foreground
  assign2 background y (y + h) x (x + w) (slice2 fg2 0 h 0 w)

/-! ### Reference-level model of `overlay_image` (for the in-place claim)

A tiny heap: numpy arrays live in a store indexed by references, Python
variables hold references.  `overlay_image` mutates the array object its
`background` argument points to and returns that same reference. -/

abbrev ImgRef := Nat

abbrev Store := ImgRef → Image

/-- `overlay_image` at the reference level: the body mutates the array held
at `bgRef` in place (the sliced assignment writes through the reference) and
`return background` yields the very same reference.  `none` propagates the
numpy ValueError, in which case the store is unchanged. -/
def overlay_image_ref (σ : Store) (bgRef fgRef : ImgRef) (x y : Int) :
    Option (Store × ImgRef) :=
  (overlay_image (σ bgRef) (σ fgRef) x y).map
    (fun img => (Function.update σ bgRef img, bgRef))

/-- Constant-valued test image. -/
def mkImage (r c : Nat) (v : Int) : Image :=
  { rows := r, cols := c, px := fun _ _ => v }

/-! ## Pipeline B: tracker_compare.py -/

/-- A video frame, identified opaquely (pixel content only matters for
`overlay_image`, which is modelled separately at the `Image` level). -/
abbrev Frame := Nat

/-- A BGR colour triple. -/
abbrev Color := Int × Int × Int

/-- A bounding box `(x, y, w, h)` in pixel coordinates (the script converts
every component through `int(...)` before drawing). -/
abbrev BBox := Int × Int × Int × Int

/-- Drawing command issued onto the composite output frame of Pipeline B. -/
inductive DrawCmdB where
  /-- `overlay_image(output_frame, roi_image, x, y)` — paste the ROI
  snapshot at the given offset. -/
  | pasteRoi (x y : Int)
  /-- `cv2.rectangle(frame, p1, p2, color, thickness)`. -/
  | rectangle (p1 p2 : Int × Int) (color : Color) (thickness : Nat)
  /-- `cv2.putText(frame, text, org, font, scale, color, thickness)`
  (font parameters are fixed constants in the script and omitted). -/
  | putText (label : String) (org : Int × Int) (color : Color)
  deriving DecidableEq

/-- tracker_compare.py lines 7-21:

```
def draw_rect(frame_2_draw, rect, color, text, index):
    x, y, w, h = [int(v) for v in rect]
    cv2.rectangle(frame_2_draw, (x, y), (x + w, y + h), color, 2)
    ...
    dx = [0, 1, 0, 1]
    dy = [0, 0, 1, 1]
    cv2.putText(frame_2_draw, text,
    (x + (dx[index % 4]) * w, y + (dy[index % 4]) * h),
        font, font_scale, color, font_thickness)
```
-/
def draw_rect (rect : BBox) (color : Color) (text : String) (index : Nat) :
    List DrawCmdB :=
  let x := rect.1
  let y := rect.2.1
  let w := rect.2.2.1
  let h := rect.2.2.2
  let dx : List Int := [0, 1, 0, 1]
  let dy : List Int := [0, 0, 1, 1]
  [DrawCmdB.rectangle (x, y) (x + w, y + h) color 2,
   DrawCmdB.putText text (x + dx.getD (index % 4) 0 * w,
                          y + dy.getD (index % 4) 0 * h) color]

/-- The four corner-offset pairs named by the specification, in cycle order:
`[(0,0), (1,0), (0,1), (1,1)]`.  (Spec-side formulation, to be compared with
the `dx`/`dy` tables of `draw_rect`.) -/
def specCornerCycle : List (Int × Int) := [(0, 0), (1, 0), (0, 1), (1, 1)]

/-- One entry of the `trackers` list (lines 49-65): a name and a display
colour; the external tracker handle itself is opaque and modelled by the
per-frame update oracle. -/
structure TrackerEntry where
  name : String
  color : Color
  deriving DecidableEq

/-- The three trackers created in tracker_compare.py lines 49-65. -/
def trackers_list : List TrackerEntry :=
  [⟨"KCF", (0, 0, 255)⟩, ⟨"CSRT", (255, 0, 0)⟩, ⟨"MIL", (255, 255, 0)⟩]

/-- One element of the per-frame `bboxes` list (lines 88-92): the dict
`{'tracker': name, 'bbox': bbox, 'color': color}`. -/
structure BoxRec where
  tracker : String
  bbox : BBox
  color : Color
  deriving DecidableEq

/-- tracker_compare.py lines 81-92: ask each tracker for an updated box and
keep only the successful ones, in tracker order.  `update frame name`
models `tracker['tracker'].update(frame)` for the named tracker (the
trackers' internal state is opaque; the oracle is keyed by the frame). -/
def collect_bboxes (update : Frame → String → Bool × BBox)
    (trackers : List TrackerEntry) (frame : Frame) : List BoxRec :=
  trackers.filterMap (fun t =>
    let r := update frame t.name
    if r.1 then some ⟨t.name, r.2, t.color⟩ else none)

/-- tracker_compare.py lines 95-99: the drawing commands issued onto the
composite `output_frame` for one frame — paste the ROI snapshot at (0, 0),
then draw each surviving tracker's rectangle and label, indexed by its
position in the `bboxes` list. -/
def frameB (update : Frame → String → Bool × BBox)
    (trackers : List TrackerEntry) (frame : Frame) : List DrawCmdB :=
  DrawCmdB.pasteRoi 0 0 ::
    ((collect_bboxes update trackers frame).enum.flatMap
      (fun p => draw_rect p.2.bbox p.2.color p.2.tracker p.1))

/-- tracker_compare.py lines 74-109: the main loop of Pipeline B over a
stream of frame reads (`none` = `ret` false).  Returns the per-frame drawing
command lists and whether the "End of video." message was printed.  User
cancellation (ESC) is modelled as never pressed; the fixed sleep has no
observable effect. -/
def runB (update : Frame → String → Bool × BBox)
    (trackers : List TrackerEntry) : List (Option Frame) →
    List (List DrawCmdB) × Bool
  | [] => ([], false)
  | none :: _ => ([], true)
  | some f :: rest =>
      let out := frameB update trackers f
      let r := runB update trackers rest
      (out :: r.1, r.2)

/-- Observable side effects of the setup phase of Pipeline B
(lines 39-72), in program order. -/
inductive SetupEvent where
  | roiSelected
  | trackerInited (name : String)
  | writerOpened
  deriving DecidableEq

/-- tracker_compare.py lines 39-72: read the first frame; on failure raise
`ValueError("Could not read video")` before anything else happens; otherwise
select the ROI interactively, initialise the three trackers on the first
frame, and open the output video writer.  `Except.error` carries the
ValueError message; the event list records which effects occurred. -/
def setupB (firstRead : Option Frame) (selectRoi : Frame → BBox) :
    Except String (Frame × BBox) × List SetupEvent :=
  match firstRead with
  | none => (Except.error "Could not read video", [])
  | some frame =>
      let roi := selectRoi frame
      (Except.ok (frame, roi),
        SetupEvent.roiSelected ::
          trackers_list.map (fun t => SetupEvent.trackerInited t.name) ++
          [SetupEvent.writerOpened])

/-! ## Pipeline A: optical_flow_demo.py -/

/-- A 2-D point.  OpenCV returns float32 coordinates; the script passes every
coordinate through `int(...)` before drawing, and no claim concerns
sub-pixel values, so coordinates are modelled as integers. -/
abbrev Point := Int × Int

/-- A grayscale frame (`cv2.cvtColor(frame, cv2.COLOR_BGR2GRAY)` output),
identified opaquely. -/
abbrev Gray := Nat

/-- `frames_to_calc = 5` (optical_flow_demo.py line 9): the history depth K. -/
def frames_to_calc : Nat := 5

/-- Drawing command issued onto the annotated output frame of Pipeline A. -/
inductive DrawCmdA where
  /-- `cv2.circle(frame, center, radius, color, -1)`. -/
  | circle (center : Point) (radius : Nat) (color : Color)
  /-- `cv2.arrowedLine(frame, p1, p2, color, 2, tipLength=0.5)`:
  an arrow drawn from `p1` to `p2`. -/
  | arrow (p1 p2 : Point) (color : Color)
  deriving DecidableEq

/-- optical_flow_demo.py lines 32-35:

```
def show_good_features(frame_source, corners):
    for corner in corners:
        x, y = corner.ravel()
        cv2.circle(frame_source, (int(x), int(y)), 5, (0, 0, 255), -1)
```
-/
def show_good_features (corners : List Point) : List DrawCmdA :=
  corners.map (fun c => DrawCmdA.circle c 5 (0, 0, 255))

/-- The body of the `enumerate` loop in `show_lines` (lines 39-46), with `i`
the running enumeration index.  Note the destructuring: each element of
`zip(source, destination)` is the pair `(source[i], destination[i])`, which
the loop header names `(dst, src)` — so `dst` is the i-th element of
`source` and `src` the i-th element of `destination`.  The arrow is drawn
from `(x_src, y_src)` to `(x_dst, y_dst)` and the radius-10 circle at
`(x_src, y_src)`. -/
def show_lines_aux (random_colors : Nat → Color) (i : Nat) :
    List (Point × Point) → List DrawCmdA
  | [] => []
  | p :: rest =>
      let dst := p.1
      let src := p.2
      let color := random_colors (i % 100)
      DrawCmdA.arrow src dst color :: DrawCmdA.circle src 10 color ::
        show_lines_aux random_colors (i + 1) rest

/-- optical_flow_demo.py lines 37-46:

```
def show_lines(frame_source, source, destination):
    random_colors = np.random.randint(0, 255, (100, 3))
    for i, (dst, src) in enumerate(zip(source, destination)):
        ...
        color = random_colors[i % 100].tolist()
        cv2.arrowedLine(frame_source, (int(x_src), int(y_src)),
                        (int(x_dst), int(y_dst)), color, 2, tipLength=0.5)
        cv2.circle(frame_source, (int(x_src), int(y_src)), 10, color, -1)
```

The freshly sampled random colour table is the oracle `random_colors`. -/
def show_lines (random_colors : Nat → Color)
    (source destination : List Point) : List DrawCmdA :=
  show_lines_aux random_colors 0 (source.zip destination)

/-- numpy boolean-mask indexing `arr[mask]` for parallel arrays, as used in
`p_dst[status == 1]` / `p_src[status == 1]` (lines 72-73): keep the entries
whose mask bit is set, in order. -/
def boolIndex {α : Type} : List α → List Bool → List α
  | [], _ => []
  | _, [] => []
  | x :: xs, b :: bs => if b then x :: boolIndex xs bs else boolIndex xs bs

/-- Appending to `deque(maxlen=frames_to_calc)`: when the deque is at
capacity, the leftmost (oldest) element is evicted automatically. -/
def dequeAppend (buf : List Gray) (g : Gray) : List Gray :=
  if buf.length = frames_to_calc then buf.tail ++ [g] else buf ++ [g]

/-- The history-buffer action of one loop iteration (lines 62-65 and 85):
pop the oldest grayscale frame as the flow reference when the deque holds at
least `frames_to_calc` frames (otherwise no reference), then append the
current grayscale frame.  Returns the reference (if any) and the buffer
state after the iteration.  (In the script the append happens after drawing
and display; nothing between reads the buffer, so the resulting state is the
same.) -/
def bufStep (buf : List Gray) (g : Gray) : Option Gray × List Gray :=
  let popped := if buf.length ≥ frames_to_calc then (buf.head?, buf.tail)
                else (none, buf)
  (popped.1, dequeAppend popped.2 g)

/-- The history-buffer trace of the loop over a list of grayscale frames:
for each iteration, the reference frame popped (if any) and the buffer state
at the end of the iteration. -/
def bufTrace : List Gray → List Gray → List (Option Gray × List Gray)
  | _, [] => []
  | buf, g :: rest =>
      let r := bufStep buf g
      r :: bufTrace r.2 rest

/-- Result of `cv2.calcOpticalFlowPyrLK` (line 68): the matched points
`p_dst` (possibly `None`) and the per-point success flags `status`
(`status == 1` modelled as `true`).  The `err` output is unused by the
script and omitted. -/
structure FlowOut where
  p_dst : Option (List Point)
  status : List Bool

/-- One iteration of the Pipeline A loop body after the frame has been read
and converted (optical_flow_demo.py lines 58-85), given the detector result
`p_src0` (`cv2.goodFeaturesToTrack`, `none` = Python `None`) and the flow
oracle (`flow current reference points`).  Produces the drawing commands
issued onto `output_frame` and the next buffer state; `none` models an
uncaught Python exception:

* if a reference frame was popped and `p_src0` is `None`, the call
  `cv2.calcOpticalFlowPyrLK(src_gray, prev_frame_gray, None, ...)` raises;
* if no reference exists and `p_src0` is `None`, the `for corner in corners`
  loop of `show_good_features` raises `TypeError` iterating over `None`.

When the flow result `p_dst` is not `None`, both point arrays are filtered
by the status mask and `p_src` is rebound to its filtered version, so the
subsequent `show_good_features(output_frame, p_src)` draws the filtered
points. -/
def stepA (flow : Gray → Gray → List Point → FlowOut)
    (random_colors : Nat → Color) (buf : List Gray) (src_gray : Gray)
    (p_src0 : Option (List Point)) :
    Option (List DrawCmdA × List Gray) :=
  let r := bufStep buf src_gray
  match r.1, p_src0 with
  | some _, none => none
  | some ref, some ps =>
      let out := flow src_gray ref ps
      match out.p_dst with
      | some pd =>
          let pdF := boolIndex pd out.status
          let psF := boolIndex ps out.status
          some (show_lines random_colors psF pdF ++ show_good_features psF,
                r.2)
      | none => some (show_good_features ps, r.2)
  | none, none => none
  | none, some ps => some (show_good_features ps, r.2)

/-- optical_flow_demo.py lines 50-89: the main loop of Pipeline A over a
stream of frame reads (`none` = `ret` false), threading the history buffer.
`cvt` models `cv2.cvtColor(..., COLOR_BGR2GRAY)` and `detect` models
`cv2.goodFeaturesToTrack`.  Returns the per-iteration drawing command lists
and whether the "End of video." message was printed; `none` models an
uncaught exception escaping the loop.  User cancellation (ESC) is modelled
as never pressed; the fixed sleep has no observable effect. -/
def runA (cvt : Frame → Gray) (detect : Gray → Option (List Point))
    (flow : Gray → Gray → List Point → FlowOut)
    (random_colors : Nat → Color) :
    List Gray → List (Option Frame) →
    Option (List (List DrawCmdA) × Bool)
  | _, [] => some ([], false)
  | _, none :: _ => some ([], true)
  | buf, some f :: rest =>
      let g := cvt f
      match stepA flow random_colors buf g (detect g) with
      | none => none
      | some (cmds, bufNext) =>
          match runA cvt detect flow random_colors bufNext rest with
          | none => none
          | some (outs, eos) => some (cmds :: outs, eos)

/-! ## Concrete fixtures used to instantiate the oracles -/

/-- Recognises the `cv2.rectangle` commands (the drawn boxes) among the
composite-frame commands of Pipeline B. -/
def isRectCmd : DrawCmdB → Bool
  | DrawCmdB.rectangle _ _ _ _ => true
  | _ => false

/-- Update oracle for the tracker-failure scenario: the CSRT tracker (the
second of the three) reports failure on every frame, the other two succeed
with the box `(1, 2, 3, 4)`. -/
def upd_fail_csrt : Frame → String → Bool × BBox :=
  fun _ n => (!(n == "CSRT"), (1, 2, 3, 4))

/-- Flow oracle fixture: one matched point `(5, 5)` with success flag set. -/
def flow_fix : Gray → Gray → List Point → FlowOut :=
  fun _ _ _ => ⟨some [(5, 5)], [true]⟩

/-- Colour-table fixture: every sampled colour is `(7, 7, 7)`. -/
def rc_fix : Nat → Color := fun _ => (7, 7, 7)

/-- Store fixture: every reference holds a 2×2 zero image. -/
def exStore : Store := fun _ => mkImage 2 2 0

/-! ## Helper lemmas -/

theorem boolIndex_length_eq {α β : Type} :
    ∀ (bs : List Bool) (xs : List α) (ys : List β),
      xs.length = bs.length → ys.length = bs.length →
      (boolIndex xs bs).length = (boolIndex ys bs).length := by
  intro bs
  induction bs with
  | nil =>
      intro xs ys hx hy
      cases xs <;> cases ys <;> simp_all [boolIndex]
  | cons b bs ih =>
      intro xs ys hx hy
      cases xs with
      | nil => simp at hx
      | cons x xs =>
        cases ys with
        | nil => simp at hy
        | cons y ys =>
            simp only [List.length_cons, Nat.succ.injEq] at hx hy
            cases b <;> simp [boolIndex, ih xs ys hx hy]

theorem boolIndex_zip {α β : Type} :
    ∀ (bs : List Bool) (xs : List α) (ys : List β),
      xs.length = bs.length → ys.length = bs.length →
      (boolIndex xs bs).zip (boolIndex ys bs) = boolIndex (xs.zip ys) bs := by
  intro bs
  induction bs with
  | nil =>
      intro xs ys hx hy
      cases xs <;> cases ys <;> simp_all [boolIndex]
  | cons b bs ih =>
      intro xs ys hx hy
      cases xs with
      | nil => simp at hx
      | cons x xs =>
        cases ys with
        | nil => simp at hy
        | cons y ys =>
            simp only [List.length_cons, Nat.succ.injEq] at hx hy
            cases b with
            | false => exact ih xs ys hx hy
            | true => exact congrArg (List.cons (x, y)) (ih xs ys hx hy)

theorem collect_bboxes_filter (update : Frame → String → Bool × BBox)
    (frame : Frame) :
    ∀ trackers : List TrackerEntry,
      collect_bboxes update trackers frame =
        collect_bboxes update
          (trackers.filter (fun t => (update frame t.name).1)) frame := by
  intro trackers
  induction trackers with
  | nil => rfl
  | cons t ts ih =>
      by_cases h : (update frame t.name).1
      · simp [collect_bboxes, List.filter_cons, h] at ih ⊢
        exact ih
      · simp only [Bool.not_eq_true] at h
        simp [collect_bboxes, List.filter_cons, h] at ih ⊢
        exact ih

/-! ## Claim theorems -/

/-- C2: for every pair of point arrays of equal length and a boolean status
mask of the same length, filtering both arrays by the mask yields arrays of
equal length whose i-th elements come from the same original index (their
zip equals the mask-filter of the original zipped pairs). -/
theorem mask_filter_lockstep (src dst : List Point) (mask : List Bool)
    (hs : src.length = mask.length) (hd : dst.length = mask.length) :
    (boolIndex src mask).length = (boolIndex dst mask).length ∧
    (boolIndex src mask).zip (boolIndex dst mask) =
      boolIndex (src.zip dst) mask :=
  ⟨boolIndex_length_eq mask src dst hs hd, boolIndex_zip mask src dst hs hd⟩

theorem mask_filter_lockstep_witness :
    ([(1, 1), (2, 2), (3, 3)] : List Point).length =
        ([true, false, true] : List Bool).length ∧
    ([(4, 4), (5, 5), (6, 6)] : List Point).length =
        ([true, false, true] : List Bool).length ∧
    ((boolIndex [((1 : Int), (1 : Int)), (2, 2), (3, 3)]
        [true, false, true]).length =
      (boolIndex [((4 : Int), (4 : Int)), (5, 5), (6, 6)]
        [true, false, true]).length ∧
     (boolIndex [((1 : Int), (1 : Int)), (2, 2), (3, 3)]
        [true, false, true]).zip
        (boolIndex [((4 : Int), (4 : Int)), (5, 5), (6, 6)]
          [true, false, true]) =
      boolIndex ([((1 : Int), (1 : Int)), (2, 2), (3, 3)].zip
        [((4 : Int), (4 : Int)), (5, 5), (6, 6)]) [true, false, true]) :=
  ⟨by decide, by decide,
   mask_filter_lockstep [(1, 1), (2, 2), (3, 3)] [(4, 4), (5, 5), (6, 6)]
     [true, false, true] (by decide) (by decide)⟩

/-- C4: for every rectangle, colour, label text and tracker index `i`, the
label drawn by `draw_rect` is placed at the corner offset given by the
`(i % 4)`-th `(dx, dy)` pair of the cycle `[(0,0), (1,0), (0,1), (1,1)]`,
scaled by the box width and height. -/
theorem draw_rect_label_cycle (x y w h : Int) (color : Color) (text : String)
    (i : Nat) :
    draw_rect (x, y, w, h) color text i =
      [DrawCmdB.rectangle (x, y) (x + w, y + h) color 2,
       DrawCmdB.putText text
         (x + (specCornerCycle.getD (i % 4) (0, 0)).1 * w,
          y + (specCornerCycle.getD (i % 4) (0, 0)).2 * h) color] := by
  have h4 : i % 4 = 0 ∨ i % 4 = 1 ∨ i % 4 = 2 ∨ i % 4 = 3 := by omega
  rcases h4 with h | h | h | h <;> simp [draw_rect, specCornerCycle, h]

/-- C5: a tracker whose update reports failure contributes nothing to the
frame's composite output (removing the failed trackers from the list does
not change the issued commands), and in the concrete scenario of the three
script trackers with CSRT failing, exactly two boxes are drawn — for KCF
(index 0 in the surviving list) and MIL (index 1). -/
theorem tracker_failure_omits_box :
    (∀ (update : Frame → String → Bool × BBox)
       (trackers : List TrackerEntry) (frame : Frame),
       frameB update trackers frame =
         frameB update
           (trackers.filter (fun t => (update frame t.name).1)) frame) ∧
    frameB upd_fail_csrt trackers_list 7 =
      [DrawCmdB.pasteRoi 0 0,
       DrawCmdB.rectangle (1, 2) (4, 6) (0, 0, 255) 2,
       DrawCmdB.putText "KCF" (1, 2) (0, 0, 255),
       DrawCmdB.rectangle (1, 2) (4, 6) (255, 255, 0) 2,
       DrawCmdB.putText "MIL" (4, 2) (255, 255, 0)] ∧
    ((frameB upd_fail_csrt trackers_list 7).filter isRectCmd).length = 2 := by
  refine ⟨?_, by decide, by decide⟩
  intro update trackers frame
  unfold frameB
  rw [collect_bboxes_filter]

/-- C9: if the initial frame read of Pipeline B fails, the setup aborts
immediately with the ValueError message "Could not read video", and no ROI
selection, tracker initialisation or output-writer creation happens (the
event list is empty). -/
theorem initial_read_failure_aborts (selectRoi : Frame → BBox) :
    setupB none selectRoi = (Except.error "Could not read video", []) := rfl

/-- C10: `overlay_image` mutates the array its `background` argument refers
to in place and returns that same reference: whenever the call completes, the
returned reference is `bgRef` itself and the store is updated at `bgRef`
(and nowhere else) with the overlaid image — so the caller's frame is
modified even if the return value is discarded. -/
theorem overlay_image_in_place (σ : Store) (bgRef fgRef : ImgRef) (x y : Int)
    (h : (overlay_image (σ bgRef) (σ fgRef) x y).isSome = true) :
    overlay_image_ref σ bgRef fgRef x y =
      some (Function.update σ bgRef
        ((overlay_image (σ bgRef) (σ fgRef) x y).get h), bgRef) := by
  obtain ⟨img, heq⟩ := Option.isSome_iff_exists.mp h
  have hg : (overlay_image (σ bgRef) (σ fgRef) x y).get h = img :=
    Option.get_of_mem h heq
  unfold overlay_image_ref
  rw [hg, heq]
  rfl

theorem overlay_image_in_place_witness :
    overlay_image_ref exStore 0 1 0 0 =
      some (Function.update exStore 0
        ((overlay_image (exStore 0) (exStore 1) 0 0).get (by rfl)), 0) :=
  overlay_image_in_place exStore 0 1 0 0 (by rfl)

theorem bufStep_length_le (buf : List Gray) (g : Gray)
    (h : buf.length ≤ frames_to_calc) :
    ((bufStep buf g).2).length ≤ frames_to_calc := by
  simp only [bufStep, dequeAppend]
  split_ifs <;>
    simp_all [List.length_append, List.length_tail, frames_to_calc] <;>
    omega

theorem bufTrace_length_le :
    ∀ (frames buf : List Gray), buf.length ≤ frames_to_calc →
      ∀ p ∈ bufTrace buf frames, p.2.length ≤ frames_to_calc := by
  intro frames
  induction frames with
  | nil => intro buf h p hp; simp [bufTrace] at hp
  | cons g rest ih =>
      intro buf h p hp
      simp only [bufTrace, List.mem_cons] at hp
      rcases hp with rfl | hp
      · exact bufStep_length_le buf g h
      · exact ih _ (bufStep_length_le buf g h) p hp

/-- C1: the history deque never holds more than `frames_to_calc = 5`
grayscale frames after any iteration of the loop (and since the pop in an
iteration only shrinks the buffer before the append, no intermediate state
exceeds it either); and on the iteration that processes the 6th frame, the
frame popped as the flow-comparison reference is the 1st frame — the oldest
of the first five appended. -/
theorem history_buffer_bounded_and_first_pop :
    (∀ (frames : List Gray) (p : Option Gray × List Gray),
       p ∈ bufTrace [] frames → p.2.length ≤ frames_to_calc) ∧
    (∀ (f1 f2 f3 f4 f5 f6 : Gray) (rest : List Gray),
       ((bufTrace [] ([f1, f2, f3, f4, f5, f6] ++ rest)).map Prod.fst).take 6 =
         [none, none, none, none, none, some f1]) := by
  constructor
  · intro frames p hp
    exact bufTrace_length_le frames [] (by simp [frames_to_calc]) p hp
  · intro f1 f2 f3 f4 f5 f6 rest
    simp [bufTrace, bufStep, dequeAppend, frames_to_calc]

theorem history_buffer_bounded_and_first_pop_witness :
    ((some 10, [20, 30, 40, 50, 60]) ∈
       bufTrace [] [10, 20, 30, 40, 50, 60]) ∧
    ((some 10, [20, 30, 40, 50, 60]) :
        Option Gray × List Gray).2.length ≤ frames_to_calc ∧
    ((bufTrace [] ([10, 20, 30, 40, 50, 60] ++ [70])).map Prod.fst).take 6 =
      [none, none, none, none, none, some 10] :=
  ⟨by decide,
   history_buffer_bounded_and_first_pop.1 [10, 20, 30, 40, 50, 60]
     (some 10, [20, 30, 40, 50, 60]) (by decide),
   history_buffer_bounded_and_first_pop.2 10 20 30 40 50 60 [70]⟩

theorem stepA_some_isSome (flow : Gray → Gray → List Point → FlowOut)
    (rc : Nat → Color) (buf : List Gray) (g : Gray) (ps : List Point) :
    ∃ cmds bufNext,
      stepA flow rc buf g (some ps) = some (cmds, bufNext) := by
  cases h : (bufStep buf g).1 with
  | none =>
      refine ⟨show_good_features ps, (bufStep buf g).2, ?_⟩
      simp [stepA, h]
  | some ref =>
      cases hpd : (flow g ref ps).p_dst with
      | none =>
          refine ⟨show_good_features ps, (bufStep buf g).2, ?_⟩
          simp [stepA, h, hpd]
      | some pd =>
          refine ⟨show_lines rc (boolIndex ps (flow g ref ps).status)
              (boolIndex pd (flow g ref ps).status) ++
              show_good_features (boolIndex ps (flow g ref ps).status),
            (bufStep buf g).2, ?_⟩
          simp [stepA, h, hpd]

theorem runA_eos (cvt : Frame → Gray) (detect : Gray → Option (List Point))
    (flow : Gray → Gray → List Point → FlowOut) (rc : Nat → Color) :
    ∀ (pre : List Frame) (post : List (Option Frame)) (buf : List Gray),
      (∀ f ∈ pre, (detect (cvt f)).isSome = true) →
      ∃ outs, runA cvt detect flow rc buf (pre.map some ++ none :: post) =
        some (outs, true) ∧ outs.length = pre.length := by
  intro pre
  induction pre with
  | nil => intro post buf _; exact ⟨[], rfl, rfl⟩
  | cons f rest ih =>
      intro post buf hdet
      have hf : (detect (cvt f)).isSome = true := hdet f (by simp)
      obtain ⟨ps, hps⟩ := Option.isSome_iff_exists.mp hf
      obtain ⟨cmds, bufNext, hstep⟩ :=
        stepA_some_isSome flow rc buf (cvt f) ps
      obtain ⟨outs, hrun, hlen⟩ :=
        ih post bufNext (fun f' hf' => hdet f' (by simp [hf']))
      refine ⟨cmds :: outs, ?_, by simp [hlen]⟩
      have hred : runA cvt detect flow rc buf
          ((f :: rest).map some ++ none :: post) =
          (match stepA flow rc buf (cvt f) (detect (cvt f)) with
           | none => none
           | some (cmds2, bufNext2) =>
               match runA cvt detect flow rc bufNext2
                   (rest.map some ++ none :: post) with
               | none => none
               | some (outs2, eos2) => some (cmds2 :: outs2, eos2)) := rfl
      simp only [hred, hps, hstep, hrun]

theorem runB_eos (update : Frame → String → Bool × BBox)
    (trackers : List TrackerEntry) :
    ∀ (pre : List Frame) (post : List (Option Frame)),
      runB update trackers (pre.map some ++ none :: post) =
        (pre.map (frameB update trackers), true) := by
  intro pre
  induction pre with
  | nil => intro post; rfl
  | cons f rest ih =>
      intro post
      have hred : runB update trackers ((f :: rest).map some ++ none :: post) =
          (frameB update trackers f ::
             (runB update trackers (rest.map some ++ none :: post)).1,
           (runB update trackers (rest.map some ++ none :: post)).2) := rfl
      rw [hred, ih post]
      rfl

/-- C6: in both pipelines a failed frame read is treated as normal
end-of-stream.  Reading `pre` successful frames followed by a failed read
makes each loop terminate cleanly having processed exactly the frames of
`pre`, with the "End of video." message printed and no exception escaping
(`runA` returns `some`; `runB` is total).  For Pipeline A this assumes the
corner detector returned a non-`None` point set on the processed frames
(otherwise the loop would already have died earlier, see the claim about a
null detector result). -/
theorem eos_clean_termination (cvt : Frame → Gray)
    (detect : Gray → Option (List Point))
    (flow : Gray → Gray → List Point → FlowOut) (rc : Nat → Color)
    (update : Frame → String → Bool × BBox) (trackers : List TrackerEntry)
    (pre : List Frame) (post : List (Option Frame))
    (hdet : ∀ f ∈ pre, (detect (cvt f)).isSome = true) :
    (∃ outs, runA cvt detect flow rc [] (pre.map some ++ none :: post) =
       some (outs, true) ∧ outs.length = pre.length) ∧
    runB update trackers (pre.map some ++ none :: post) =
      (pre.map (frameB update trackers), true) :=
  ⟨runA_eos cvt detect flow rc pre post [] hdet,
   runB_eos update trackers pre post⟩

theorem eos_clean_termination_witness :
    (∀ f ∈ [1, 2, 3, 4, 5],
       ((fun _ : Gray => some ([] : List Point)) ((fun f : Frame => f) f)).isSome
         = true) ∧
    ((∃ outs, runA (fun f => f) (fun _ => some []) flow_fix rc_fix []
        ([1, 2, 3, 4, 5].map some ++ none :: [some 7, some 8, some 9, some 10])
        = some (outs, true) ∧ outs.length = [1, 2, 3, 4, 5].length) ∧
     runB upd_fail_csrt trackers_list
        ([1, 2, 3, 4, 5].map some ++ none :: [some 7, some 8, some 9, some 10])
        = ([1, 2, 3, 4, 5].map (frameB upd_fail_csrt trackers_list), true)) :=
  ⟨by decide,
   eos_clean_termination (fun f => f) (fun _ => some []) flow_fix rc_fix
     upd_fail_csrt trackers_list [1, 2, 3, 4, 5]
     [some 7, some 8, some 9, some 10] (by decide)⟩

/-- C8 (the code, evaluated at the failing input): whenever the corner
detector returns `None` — which `cv2.goodFeaturesToTrack` does when it finds
no corners — the Pipeline A iteration raises an uncaught exception instead
of completing and drawing nothing: with a flow reference available,
`cv2.calcOpticalFlowPyrLK` is called with `None` points and raises; without
one, `show_good_features` iterates over `None` and raises `TypeError`. -/
theorem detector_none_raises (flow : Gray → Gray → List Point → FlowOut)
    (rc : Nat → Color) (buf : List Gray) (g : Gray) :
    stepA flow rc buf g none = none := by
  cases h : (bufStep buf g).1 with
  | none => simp [stepA, h]
  | some ref => simp [stepA, h]

theorem zip_getD {α β : Type} :
    ∀ (xs : List α) (ys : List β) (j : Nat) (a : α) (b : β),
      j < xs.length → j < ys.length →
      (xs.zip ys).getD j (a, b) = (xs.getD j a, ys.getD j b) := by
  intro xs
  induction xs with
  | nil => intro ys j a b h1 h2; simp at h1
  | cons x xs ih =>
      intro ys j a b h1 h2
      cases ys with
      | nil => simp at h2
      | cons y ys =>
          cases j with
          | zero => rfl
          | succ j =>
              simp only [List.zip_cons_cons, List.getD_cons_succ]
              exact ih ys j a b (by simpa using h1) (by simpa using h2)

theorem show_lines_aux_arrow_mem (rc : Nat → Color) :
    ∀ (ps : List (Point × Point)) (i j : Nat), j < ps.length →
      DrawCmdA.arrow (ps.getD j ((0, 0), (0, 0))).2
          (ps.getD j ((0, 0), (0, 0))).1 (rc ((i + j) % 100)) ∈
        show_lines_aux rc i ps := by
  intro ps
  induction ps with
  | nil => intro i j h; simp at h
  | cons p rest ih =>
      intro i j h
      cases j with
      | zero => simp [show_lines_aux]
      | succ j =>
          have hm := ih (i + 1) j (by simpa using h)
          have harith : i + 1 + j = i + (j + 1) := by omega
          rw [harith] at hm
          simp only [show_lines_aux, List.getD_cons_succ]
          exact List.mem_cons_of_mem _ (List.mem_cons_of_mem _ hm)

/-- C7 counterexample: a concrete flow iteration (full history buffer,
detected point `(0, 0)`, flow-result point `(5, 5)`, success flag set) in
which the code draws the arrow from the flow-result point `(5, 5)` to the
detected point `(0, 0)` — no arrow from the detected point to the flow
result is issued, contradicting the claimed direction (the colour table is
constant, so `(7, 7, 7)` is the only colour any command carries). -/
theorem show_lines_arrow_direction_cex :
    stepA flow_fix rc_fix [0, 1, 2, 3, 4] 9 (some [(0, 0)]) =
      some ([DrawCmdA.arrow (5, 5) (0, 0) (7, 7, 7),
             DrawCmdA.circle (5, 5) 10 (7, 7, 7),
             DrawCmdA.circle (0, 0) 5 (0, 0, 255)], [1, 2, 3, 4, 9]) ∧
    DrawCmdA.arrow (0, 0) (5, 5) (7, 7, 7) ∉
      [DrawCmdA.arrow (5, 5) (0, 0) (7, 7, 7),
       DrawCmdA.circle (5, 5) 10 (7, 7, 7),
       DrawCmdA.circle (0, 0) 5 (0, 0, 255)] := by
  constructor
  · rfl
  · decide

/-- C7 (amended): on every iteration where flow estimation runs and returns
a non-`None` result, for each index `j` into the mask-filtered point lists
an arrow is drawn from the j-th filtered flow-result point to the j-th
filtered detected point (with the j-th sampled colour), and a radius-5
circle is drawn at each filtered detected corner point. -/
theorem flow_iteration_draw_commands
    (flow : Gray → Gray → List Point → FlowOut) (rc : Nat → Color)
    (buf : List Gray) (g : Gray) (ps pd : List Point) (ref : Gray)
    (hbuf : buf.length ≥ frames_to_calc) (href : buf.head? = some ref)
    (hpd : (flow g ref ps).p_dst = some pd) :
    ∃ cmds bufNext, stepA flow rc buf g (some ps) = some (cmds, bufNext) ∧
      ∀ j, j < (boolIndex ps (flow g ref ps).status).length →
           j < (boolIndex pd (flow g ref ps).status).length →
        DrawCmdA.arrow ((boolIndex pd (flow g ref ps).status).getD j (0, 0))
            ((boolIndex ps (flow g ref ps).status).getD j (0, 0))
            (rc (j % 100)) ∈ cmds ∧
        DrawCmdA.circle ((boolIndex ps (flow g ref ps).status).getD j (0, 0))
            5 (0, 0, 255) ∈ cmds := by
  have hr1 : (bufStep buf g).1 = some ref := by
    simp [bufStep, hbuf, href]
  refine ⟨show_lines rc (boolIndex ps (flow g ref ps).status)
      (boolIndex pd (flow g ref ps).status) ++
      show_good_features (boolIndex ps (flow g ref ps).status),
    (bufStep buf g).2, ?_, ?_⟩
  · simp [stepA, hr1, hpd]
  · intro j hjs hjd
    constructor
    · have hm := show_lines_aux_arrow_mem rc
        ((boolIndex ps (flow g ref ps).status).zip
          (boolIndex pd (flow g ref ps).status)) 0 j
        (by rw [List.length_zip]; omega)
      rw [zip_getD _ _ j (0, 0) (0, 0) hjs hjd] at hm
      simp only [Nat.zero_add] at hm
      exact List.mem_append_left _ hm
    · have hmem : (boolIndex ps (flow g ref ps).status).getD j (0, 0) ∈
          boolIndex ps (flow g ref ps).status := by
        rw [List.getD_eq_getElem _ _ hjs]
        exact List.getElem_mem hjs
      exact List.mem_append_right _
        (List.mem_map_of_mem (fun c => DrawCmdA.circle c 5 (0, 0, 255)) hmem)

theorem flow_iteration_draw_commands_witness :
    ([0, 1, 2, 3, 4] : List Gray).length ≥ frames_to_calc ∧
    ([0, 1, 2, 3, 4] : List Gray).head? = some 0 ∧
    (flow_fix 9 0 [(0, 0)]).p_dst = some [(5, 5)] ∧
    (∃ cmds bufNext,
       stepA flow_fix rc_fix [0, 1, 2, 3, 4] 9 (some [(0, 0)]) =
         some (cmds, bufNext) ∧
       ∀ j, j < (boolIndex [((0 : Int), (0 : Int))]
                  (flow_fix 9 0 [(0, 0)]).status).length →
            j < (boolIndex [((5 : Int), (5 : Int))]
                  (flow_fix 9 0 [(0, 0)]).status).length →
         DrawCmdA.arrow
             ((boolIndex [((5 : Int), (5 : Int))]
                (flow_fix 9 0 [(0, 0)]).status).getD j (0, 0))
             ((boolIndex [((0 : Int), (0 : Int))]
                (flow_fix 9 0 [(0, 0)]).status).getD j (0, 0))
             (rc_fix (j % 100)) ∈ cmds ∧
         DrawCmdA.circle
             ((boolIndex [((0 : Int), (0 : Int))]
                (flow_fix 9 0 [(0, 0)]).status).getD j (0, 0))
             5 (0, 0, 255) ∈ cmds) :=
  ⟨by decide, by decide, by decide,
   flow_iteration_draw_commands flow_fix rc_fix [0, 1, 2, 3, 4] 9
     [(0, 0)] [(5, 5)] 0 (by decide) (by decide) (by decide)⟩

theorem pyBound_nonneg_le (n : Nat) (i : Int) (h0 : 0 ≤ i)
    (h1 : i ≤ (n : Int)) : pyBound n i = i.toNat := by
  unfold pyBound
  rw [if_neg (by omega)]
  omega

theorem slice2_zero (a : Image) (h w : Int) (hh0 : 0 ≤ h)
    (hh1 : h ≤ (a.rows : Int)) (hw0 : 0 ≤ w) (hw1 : w ≤ (a.cols : Int)) :
    slice2 a 0 h 0 w = ⟨h.toNat, w.toNat, a.px⟩ := by
  have hb0r : pyBound a.rows 0 = 0 := pyBound_nonneg_le a.rows 0 le_rfl (by omega)
  have hb0c : pyBound a.cols 0 = 0 := pyBound_nonneg_le a.cols 0 le_rfl (by omega)
  unfold slice2 pySliceLen
  rw [hb0r, hb0c, pyBound_nonneg_le a.rows h hh0 hh1,
    pyBound_nonneg_le a.cols w hw0 hw1]
  congr 1 <;> try omega
  funext r c
  simp

theorem assign2_exact (a : Image) (r0 r1 c0 c1 : Int) (v : Image)
    (hr : v.rows = pySliceLen a.rows r0 r1)
    (hc : v.cols = pySliceLen a.cols c0 c1) :
    assign2 a r0 r1 c0 c1 v = some
      { rows := a.rows, cols := a.cols
        px := fun r c =>
          if pyBound a.rows r0 ≤ r ∧
             r < pyBound a.rows r0 + pySliceLen a.rows r0 r1 ∧
             pyBound a.cols c0 ≤ c ∧
             c < pyBound a.cols c0 + pySliceLen a.cols c0 c1 then
            v.px (if v.rows = 1 then 0 else r - pyBound a.rows r0)
                 (if v.cols = 1 then 0 else c - pyBound a.cols c0)
          else a.px r c } := by
  unfold assign2
  rw [if_pos]
  unfold broadcastOk
  rw [hr, hc]
  simp

theorem overlay_image_eq_assign (bg fg : Image) (x y : Int)
    (hW0 : 0 ≤ min (fg.cols : Int) ((bg.cols : Int) - x))
    (hH0 : 0 ≤ min (fg.rows : Int) ((bg.rows : Int) - y)) :
    overlay_image bg fg x y =
      assign2 bg y (y + min (fg.rows : Int) ((bg.rows : Int) - y))
        x (x + min (fg.cols : Int) ((bg.cols : Int) - x))
        ⟨(min (fg.rows : Int) ((bg.rows : Int) - y)).toNat,
         (min (fg.cols : Int) ((bg.cols : Int) - x)).toNat, fg.px⟩ := by
  unfold overlay_image
  dsimp only
  congr 1
  split_ifs with hc
  · rw [slice2_zero fg _ _ hH0 (min_le_left _ _) hW0 (min_le_left _ _)]
    rw [slice2_zero _ _ _ hH0 (by dsimp only; omega) hW0 (by dsimp only; omega)]
  · exact slice2_zero fg _ _ hH0 (min_le_left _ _) hW0 (min_le_left _ _)

/-- C3 counterexample: with a 3×3 background, a 2×6 foreground and offset
`(x, y) = (4, 0)` — `x` one past the background's width — the sliced
assignment in `overlay_image` raises a numpy broadcast ValueError (the
doubly-sliced foreground still has 4 columns while the target slice is
empty), so the call completes with no image at all instead of copying the
(empty) fitting part as the claim states for every offset. -/
theorem overlay_image_offset_overflow_cex :
    overlay_image (mkImage 3 3 0) (mkImage 2 6 1) 4 0 = none := rfl

/-- C3 (amended): for every background, foreground and offset with
`0 ≤ x ≤ bg.cols` and `0 ≤ y ≤ bg.rows`, `overlay_image` succeeds, keeps the
background's dimensions, copies exactly the part of the foreground that fits
(truncated to `min fg.rows (bg.rows - y)` by `min fg.cols (bg.cols - x)`) into
the in-bounds region starting at `(y, x)`, and leaves every pixel outside
that region unchanged — in particular it never writes outside the
background's bounds.  (For offsets beyond the background the call instead
raises, see the counterexample.) -/
theorem overlay_image_clips_within_bounds (bg fg : Image) (x y : Int)
    (hx0 : 0 ≤ x) (hx1 : x ≤ (bg.cols : Int))
    (hy0 : 0 ≤ y) (hy1 : y ≤ (bg.rows : Int)) :
    ∃ out, overlay_image bg fg x y = some out ∧
      out.rows = bg.rows ∧ out.cols = bg.cols ∧
      y.toNat + min fg.rows (bg.rows - y.toNat) ≤ bg.rows ∧
      x.toNat + min fg.cols (bg.cols - x.toNat) ≤ bg.cols ∧
      ∀ r c,
        ((y.toNat ≤ r ∧ r < y.toNat + min fg.rows (bg.rows - y.toNat) ∧
          x.toNat ≤ c ∧ c < x.toNat + min fg.cols (bg.cols - x.toNat)) →
            out.px r c = fg.px (r - y.toNat) (c - x.toNat)) ∧
        (¬(y.toNat ≤ r ∧ r < y.toNat + min fg.rows (bg.rows - y.toNat) ∧
           x.toNat ≤ c ∧ c < x.toNat + min fg.cols (bg.cols - x.toNat)) →
            out.px r c = bg.px r c) := by
  have hW0 : (0 : Int) ≤ min (fg.cols : Int) ((bg.cols : Int) - x) := by omega
  have hH0 : (0 : Int) ≤ min (fg.rows : Int) ((bg.rows : Int) - y) := by omega
  have hpbr : pyBound bg.rows y = y.toNat := pyBound_nonneg_le _ _ hy0 hy1
  have hpbc : pyBound bg.cols x = x.toNat := pyBound_nonneg_le _ _ hx0 hx1
  have hpsr : pySliceLen bg.rows y
      (y + min (fg.rows : Int) ((bg.rows : Int) - y)) =
      (min (fg.rows : Int) ((bg.rows : Int) - y)).toNat := by
    unfold pySliceLen
    rw [hpbr, pyBound_nonneg_le _ _ (by omega) (by omega)]
    omega
  have hpsc : pySliceLen bg.cols x
      (x + min (fg.cols : Int) ((bg.cols : Int) - x)) =
      (min (fg.cols : Int) ((bg.cols : Int) - x)).toNat := by
    unfold pySliceLen
    rw [hpbc, pyBound_nonneg_le _ _ (by omega) (by omega)]
    omega
  have hHn : (min (fg.rows : Int) ((bg.rows : Int) - y)).toNat =
      min fg.rows (bg.rows - y.toNat) := by omega
  have hWn : (min (fg.cols : Int) ((bg.cols : Int) - x)).toNat =
      min fg.cols (bg.cols - x.toNat) := by omega
  have hover := overlay_image_eq_assign bg fg x y hW0 hH0
  rw [assign2_exact bg y (y + min (fg.rows : Int) ((bg.rows : Int) - y))
      x (x + min (fg.cols : Int) ((bg.cols : Int) - x))
      ⟨(min (fg.rows : Int) ((bg.rows : Int) - y)).toNat,
       (min (fg.cols : Int) ((bg.cols : Int) - x)).toNat, fg.px⟩
      (by dsimp only; exact hpsr.symm) (by dsimp only; exact hpsc.symm)]
    at hover
  refine ⟨_, hover, rfl, rfl, by omega, by omega, ?_⟩
  intro r c
  dsimp only
  rw [hpbr, hpbc, hpsr, hpsc, hHn, hWn]
  constructor
  · intro hreg
    rw [if_pos hreg]
    have h1 : (if min fg.rows (bg.rows - y.toNat) = 1 then 0
               else r - y.toNat) = r - y.toNat := by
      split_ifs <;> omega
    have h2 : (if min fg.cols (bg.cols - x.toNat) = 1 then 0
               else c - x.toNat) = c - x.toNat := by
      split_ifs <;> omega
    rw [h1, h2]
  · intro hnreg
    rw [if_neg hnreg]

theorem overlay_image_clips_within_bounds_witness :
    (0 : Int) ≤ 2 ∧ (2 : Int) ≤ ((mkImage 3 3 0).cols : Int) ∧
    (0 : Int) ≤ 2 ∧ (2 : Int) ≤ ((mkImage 3 3 0).rows : Int) ∧
    (∃ out, overlay_image (mkImage 3 3 0) (mkImage 2 2 1) 2 2 = some out ∧
      out.rows = (mkImage 3 3 0).rows ∧ out.cols = (mkImage 3 3 0).cols ∧
      (2 : Int).toNat +
          min (mkImage 2 2 1).rows ((mkImage 3 3 0).rows - (2 : Int).toNat) ≤
        (mkImage 3 3 0).rows ∧
      (2 : Int).toNat +
          min (mkImage 2 2 1).cols ((mkImage 3 3 0).cols - (2 : Int).toNat) ≤
        (mkImage 3 3 0).cols ∧
      ∀ r c,
        (((2 : Int).toNat ≤ r ∧
          r < (2 : Int).toNat +
            min (mkImage 2 2 1).rows
              ((mkImage 3 3 0).rows - (2 : Int).toNat) ∧
          (2 : Int).toNat ≤ c ∧
          c < (2 : Int).toNat +
            min (mkImage 2 2 1).cols
              ((mkImage 3 3 0).cols - (2 : Int).toNat)) →
            out.px r c =
              (mkImage 2 2 1).px (r - (2 : Int).toNat) (c - (2 : Int).toNat)) ∧
        (¬((2 : Int).toNat ≤ r ∧
           r < (2 : Int).toNat +
             min (mkImage 2 2 1).rows
               ((mkImage 3 3 0).rows - (2 : Int).toNat) ∧
           (2 : Int).toNat ≤ c ∧
           c < (2 : Int).toNat +
             min (mkImage 2 2 1).cols
               ((mkImage 3 3 0).cols - (2 : Int).toNat)) →
            out.px r c = (mkImage 3 3 0).px r c)) :=
  ⟨by decide, by decide, by decide, by decide,
   overlay_image_clips_within_bounds (mkImage 3 3 0) (mkImage 2 2 1) 2 2
     (by decide) (by decide) (by decide) (by decide)⟩
